import Mathlib

/-!
Verification of the progress renderer (`src/progress/tty.go`) and the Azure
subscription chooser (`src/azure/context.go`) of the compose repository.

Conventions of the embedding:
* Go strings are Lean `String`s; `len` is modelled by character count
  (`goLen`), which coincides with Go's byte length on the ASCII data the
  renderer manipulates.
* `time.Time` values are modelled as `Int` timestamps (tenths of a second);
  the Go zero time (an unset `endTime`) is modelled as `Option Int` with
  `none` for the zero value, read back as `0` where Go would read the zero
  time (`goTimeVal`).
* The Go map `map[string]Event` is modelled as an insertion-ordered
  association list `List (String × Event)`; lookup and in-place update
  mirror map indexing and map assignment.
* fallible Go operations (`strings.Repeat` with a negative count, indexing
  a slice out of range) are modelled with `Option` so that "panics" are
  visible as `none`.
-/

namespace Compose

/-- Modelled from the spec: the `EventStatus` enumeration (`Working | Done |
Error`) of the progress package; its declaration is not under `src/`, only
`src/progress/tty.go` which consumes it. `Working` is the zero value. -/
inductive EventStatus
  | Working
  | Done
  | Error
deriving DecidableEq, Repr

/-- Modelled from the spec: the per-event spinner object. Its declaration is
not under `src/`. The spec requires a per-event animation cursor created at
first observation and a stop operation after which the glyph no longer
advances, so the model keeps an advancement index and a stopped flag. -/
structure Spinner where
  index : Nat
  stopped : Bool
deriving DecidableEq, Repr

/-- Modelled from the spec: `newSpinner()` initializes a fresh spinner. -/
def newSpinner : Spinner :=
  { index := 0, stopped := false }

/-- Modelled from the spec: the spinner's fixed animation frames; the exact
glyphs are not under `src/` and no claim depends on them. -/
def spinnerChars : List String := ["-", "\\", "|", "/"]

/-- Modelled from the spec: `spinner.String()` renders the current frame; a
stopped spinner stays frozen on a fixed terminal glyph. -/
def Spinner.str (s : Spinner) : String :=
  if s.stopped then "*" else (spinnerChars[s.index % spinnerChars.length]?).getD "-"

/-- Modelled from the spec: `spinner.Stop()` freezes the spinner so that its
advancement halts. -/
def Spinner.halt (s : Spinner) : Spinner :=
  { s with stopped := true }

/-- Modelled from the spec: the `Event` record of the progress package (its
declaration is not under `src/`). `ID`, `Text`, `Status`, `StatusText` are
the caller-visible fields; `startTime`, `endTime`, `spinner` are internal.
Defaults are the Go zero values, which is what a producer-constructed event
carries on input. -/
structure Event where
  ID : String
  Text : String
  Status : EventStatus := EventStatus.Working
  StatusText : String := ""
  startTime : Int := 0
  endTime : Option Int := none
  spinner : Spinner := newSpinner
deriving DecidableEq, Repr

/-- Modelled from the spec: `Event.stop()` freezes `endTime` at the current
time and stops the spinner's advancement (its body is not under `src/`; the
spec states both effects). The current time is threaded explicitly. -/
def Event.stop (e : Event) (now : Int) : Event :=
  { e with endTime := some now, spinner := e.spinner.halt }

/-- Reading a possibly-unset (Go zero) time, as `lineText` does with
`event.endTime`. -/
def goTimeVal (t : Option Int) : Int :=
  t.getD 0

/-- Go `len` on the strings the renderer manipulates (character count,
equal to Go's byte length on this ASCII data). -/
def goLen (s : String) : Nat :=
  s.length

/-- Embeds `contains` (tty.go:178-185): linear membership scan of the ID
list. -/
def containsGo (ar : List String) (needle : String) : Bool :=
  ar.any (fun v => needle == v)

/-- Lookup in the association list modelling the Go map `w.events`. -/
def lookupEvent (events : List (String × Event)) (id : String) : Option Event :=
  (events.find? (fun p => p.1 == id)).map (fun p => p.2)

/-- Assignment `w.events[id] = ev` for a key already present: replace the
binding in place, preserving the order of all entries. -/
def updateEvent : List (String × Event) → String → Event → List (String × Event)
  | [], _, _ => []
  | p :: rest, id, ev => if p.1 == id then (id, ev) :: rest else p :: updateEvent rest id ev

/-- The renderer state of `ttyWriter` (tty.go:31-39); the output stream and
the lock are not data. -/
structure TtyWriter where
  events : List (String × Event)
  eventIDs : List String
  repeated : Bool
  numLines : Nat
deriving DecidableEq, Repr

/-- Modelled from the spec: the initial renderer state, created once per run
with an empty store (the constructor is not under `src/`). -/
def initWriter : TtyWriter :=
  { events := [], eventIDs := [], repeated := false, numLines := 0 }

/-- Embeds `ttyWriter.Event` (tty.go:62-82), the `record` ingestion
operation: append unseen IDs to `eventIDs`; for a stored event, call
`event.stop()` exactly when the stored status is not `Done` and the incoming
status is `Done`, then overwrite `Status`, `Text`, `StatusText`; for an
unseen ID, store the incoming event with `startTime = now` and a fresh
spinner. -/
def TtyWriter.record (w : TtyWriter) (now : Int) (e : Event) : TtyWriter :=
  let eventIDs := if containsGo w.eventIDs e.ID then w.eventIDs else w.eventIDs ++ [e.ID]
  match lookupEvent w.events e.ID with
  | some stored =>
    let stored := if stored.Status ≠ EventStatus.Done ∧ e.Status = EventStatus.Done then
      stored.stop now else stored
    let stored := { stored with Status := e.Status, Text := e.Text, StatusText := e.StatusText }
    { w with eventIDs := eventIDs, events := updateEvent w.events e.ID stored }
  | none =>
    { w with eventIDs := eventIDs,
             events := w.events ++ [(e.ID, { e with startTime := now, spinner := newSpinner })] }

/-- Embeds `numDone` (tty.go:164-172): the number of stored events whose
status is `Done`. -/
def numDone (events : List (String × Event)) : Nat :=
  (events.filter (fun p => p.2.Status == EventStatus.Done)).length

/-- Go `strings.Repeat s n` for a non-negative count: `s` concatenated `n`
times. -/
def repeatString (s : String) : Nat → String
  | 0 => ""
  | n + 1 => s ++ repeatString s n

/-- A run of `n` spaces, as produced by `strings.Repeat(" ", n)`. -/
def goSpaces (n : Nat) : String :=
  repeatString " " n

/-- Embeds `strings.Repeat` including its failure mode: the Go function
panics when the count is negative, modelled as `none`. -/
def stringsRepeat (s : String) (count : Int) : Option String :=
  if count < 0 then none else some (repeatString s count.toNat)

/-- Embeds the width computation of Go's `fmt` star verb: a negative width
operand sets the left-justify flag and is replaced by its absolute value, so
`%-*s` pads `s` on the right to `wid.natAbs` columns and never fails. -/
def padRightGo (s : String) (wid : Int) : String :=
  s ++ goSpaces (wid.natAbs - goLen s)

/-- Embeds `align` (tty.go:174-176):
`fmt.Sprintf("%-[2]*[1]s %[3]s", l, w-len(r)-1, r)`. -/
def align (l r : String) (w : Int) : String :=
  padRightGo l (w - (goLen r : Int) - 1) ++ " " ++ r

/-- ANSI foreground white, `aec.WhiteF`. -/
def whiteF : String := "\x1b[37m"

/-- ANSI foreground blue, `aec.BlueF`. -/
def blueF : String := "\x1b[34m"

/-- ANSI foreground red, `aec.RedF`. -/
def redF : String := "\x1b[31m"

/-- ANSI reset, emitted by `aec.Apply` after the text. -/
def ansiReset : String := "\x1b[0m"

/-- Embeds `aec.Apply`: wrap a string in a color code and a reset. -/
def aecApply (s color : String) : String :=
  color ++ s ++ ansiReset

/-- The color selection of `lineText` (tty.go:153-159): white, overridden to
blue for `Done` and red for `Error`. -/
def colorOf (st : EventStatus) : String :=
  if st = EventStatus.Done then blueF
  else if st = EventStatus.Error then redF
  else whiteF

/-- The `%.1fs` elapsed-time text of `lineText`, for a timestamp difference
measured in tenths of a second. -/
def fmtTenths (e : Int) : String :=
  (if e < 0 then "-" else "") ++ toString (e.natAbs / 10) ++ "." ++ toString (e.natAbs % 10)

/-- The padding count computed inside `lineText` (tty.go:138-142):
`statusPadding - len(ID + " " + Text)`, clamped to zero before
`strings.Repeat` is called. -/
def linePadding (event : Event) (statusPadding : Int) : Nat :=
  let textLen : Int := (goLen (event.ID ++ " " ++ event.Text) : Int)
  let padding : Int := statusPadding - textLen
  (if padding < 0 then 0 else padding).toNat

/-- Embeds `lineText` (tty.go:130-162): elapsed time against `now` for a
`Working` event and against the frozen `endTime` otherwise, the
space-padded left text, the trailing timer, `align`, and the status color. -/
def lineText (now : Int) (event : Event) (terminalWidth statusPadding : Int) : String :=
  let endTime : Int := if event.Status ≠ EventStatus.Working then goTimeVal event.endTime else now
  let elapsed : Int := endTime - event.startTime
  let text := " " ++ event.spinner.str ++ " " ++ event.ID ++ " " ++ event.Text
    ++ goSpaces (linePadding event statusPadding) ++ " " ++ event.StatusText
  let timer := fmtTenths elapsed ++ "s\n"
  aecApply (align text timer terminalWidth) (colorOf event.Status)

/-- The fallible rendering of `lineText`: identical to `lineText` except that
the `strings.Repeat` call is the panic-aware `stringsRepeat`, so a negative
repeat count would surface as `none`. -/
def lineTextChecked (now : Int) (event : Event) (terminalWidth statusPadding : Int) :
    Option String :=
  let endTime : Int := if event.Status ≠ EventStatus.Working then goTimeVal event.endTime else now
  let elapsed : Int := endTime - event.startTime
  let textLen : Int := (goLen (event.ID ++ " " ++ event.Text) : Int)
  let padding : Int := statusPadding - textLen
  let padding : Int := if padding < 0 then 0 else padding
  (stringsRepeat " " padding).map (fun pad =>
    let text := " " ++ event.spinner.str ++ " " ++ event.ID ++ " " ++ event.Text
      ++ pad ++ " " ++ event.StatusText
    let timer := fmtTenths elapsed ++ "s\n"
    aecApply (align text timer terminalWidth) (colorOf event.Status))

/-- The Go zero `Event`, produced by indexing the map at an absent key. -/
def zeroEvent : Event :=
  { ID := "", Text := "" }

/-- Map indexing `w.events[v]` as used in `print`: the stored event, or the
zero `Event` when the key is absent. -/
def getEvent (w : TtyWriter) (id : String) : Event :=
  (lookupEvent w.events id).getD zeroEvent

/-- The shared padding computed by the first loop of `print`
(tty.go:111-117): the running maximum of `len(ID + " " + Text)` over
`eventIDs`, starting from zero. -/
def statusPaddingOf (w : TtyWriter) : Int :=
  w.eventIDs.foldl
    (fun acc v => max acc ((goLen ((getEvent w v).ID ++ " " ++ (getEvent w v).Text) : Int))) 0

/-- The header text of `print` (tty.go:105):
`"[+] Running <numDone>/<numLines>"`, with `numLines` the line count of the
previous repaint. -/
def headerTextOf (w : TtyWriter) : String :=
  "[+] Running " ++ toString (numDone w.events) ++ "/" ++ toString w.numLines

/-- The header line of `print` (tty.go:105-108): blue exactly when the
previous line count is nonzero and equals the current `Done` count. -/
def headerLineOf (w : TtyWriter) : String :=
  if w.numLines ≠ 0 ∧ numDone w.events = w.numLines then aecApply (headerTextOf w) blueF
  else headerTextOf w

/-- Embeds `ttyWriter.print` (tty.go:84-128) as a state transformer
returning the lines written: no-op on an empty ID list, otherwise mark
`repeated`, emit the header, compute the shared padding, emit one
`lineText` line per ID in `eventIDs` order, and record the number of data
lines written as the new `numLines`. The cursor-movement and
hide/show-cursor escape output carries no data and is not modelled. -/
def TtyWriter.print (w : TtyWriter) (now terminalWidth : Int) : TtyWriter × List String :=
  if w.eventIDs = [] then (w, [])
  else
    let w := { w with repeated := true }
    let firstLine := headerLineOf w
    let statusPadding := statusPaddingOf w
    let lines := w.eventIDs.map (fun v => lineText now (getEvent w v) terminalWidth statusPadding)
    ({ w with numLines := lines.length }, firstLine :: lines)

/-- A sequence of `record` calls (timestamp and incoming event) applied to
the fresh renderer. -/
def runRecords (calls : List (Int × Event)) : TtyWriter :=
  calls.foldl (fun w c => w.record c.1 c.2) initWriter

/-- The first-seen order of a stream of IDs relative to a list of IDs seen
already: each ID not seen before is kept at the position of its first
occurrence, later occurrences are dropped. -/
def firstSeenFrom (seen : List String) : List String → List String
  | [] => []
  | x :: xs =>
    if containsGo seen x then firstSeenFrom seen xs
    else x :: firstSeenFrom (seen ++ [x]) xs

theorem goLen_append (s t : String) : goLen (s ++ t) = goLen s + goLen t := by
  simp [goLen, String.length_append]

theorem goLen_goSpaces (n : Nat) : goLen (goSpaces n) = n := by
  induction n with
  | zero => rfl
  | succ k ih =>
    show goLen (" " ++ goSpaces k) = k + 1
    have h1 : goLen " " = 1 := by decide
    rw [goLen_append, ih, h1]
    omega

theorem containsGo_iff (l : List String) (a : String) : containsGo l a = true ↔ a ∈ l := by
  simp only [containsGo, List.any_eq_true, beq_iff_eq]
  constructor
  · rintro ⟨x, hx, rfl⟩
    exact hx
  · intro h
    exact ⟨a, h, rfl⟩

theorem lookupEvent_isSome_iff (l : List (String × Event)) (id : String) :
    (lookupEvent l id).isSome = true ↔ id ∈ l.map Prod.fst := by
  simp [lookupEvent, List.find?_isSome, List.mem_map]

theorem updateEvent_keys (l : List (String × Event)) (k : String) (v : Event) :
    (updateEvent l k v).map Prod.fst = l.map Prod.fst := by
  induction l with
  | nil => rfl
  | cons p rest ih =>
    by_cases h : (p.1 == k) = true
    · have hk : p.1 = k := by simpa using h
      simp [updateEvent, h, hk]
    · simp [updateEvent, h, ih]

theorem lookupEvent_updateEvent_self (l : List (String × Event)) (k : String) (v x : Event)
    (h : lookupEvent l k = some x) :
    lookupEvent (updateEvent l k v) k = some v := by
  induction l with
  | nil => simp [lookupEvent] at h
  | cons p rest ih =>
    by_cases hp : (p.1 == k) = true
    · simp [updateEvent, hp, lookupEvent]
    · have h' : lookupEvent rest k = some x := by
        simpa [lookupEvent, List.find?, hp] using h
      simpa [updateEvent, hp, lookupEvent, List.find?] using ih h'

theorem record_eventIDs (w : TtyWriter) (now : Int) (e : Event) :
    (w.record now e).eventIDs =
      if containsGo w.eventIDs e.ID then w.eventIDs else w.eventIDs ++ [e.ID] := by
  unfold TtyWriter.record
  cases lookupEvent w.events e.ID <;> rfl

/-- The update performed by `record` on an already stored event: the
three caller-controlled fields are overwritten, and `endTime`/`spinner`
change exactly on a not-yet-`Done` to `Done` transition. -/
def updatedStored (stored : Event) (now : Int) (e : Event) : Event :=
  { stored with
    Status := e.Status, Text := e.Text, StatusText := e.StatusText,
    endTime := if stored.Status ≠ EventStatus.Done ∧ e.Status = EventStatus.Done
      then some now else stored.endTime,
    spinner := if stored.Status ≠ EventStatus.Done ∧ e.Status = EventStatus.Done
      then stored.spinner.halt else stored.spinner }

theorem record_events_seen (w : TtyWriter) (now : Int) (e stored : Event)
    (h : lookupEvent w.events e.ID = some stored) :
    (w.record now e).events = updateEvent w.events e.ID (updatedStored stored now e) := by
  unfold TtyWriter.record
  rw [h]
  by_cases hc : stored.Status ≠ EventStatus.Done ∧ e.Status = EventStatus.Done
  · simp [hc, Event.stop, Spinner.halt, updatedStored]
  · simp [hc, updatedStored]

theorem lookup_record_seen (w : TtyWriter) (now : Int) (e stored : Event)
    (h : lookupEvent w.events e.ID = some stored) :
    lookupEvent ((w.record now e).events) e.ID = some (updatedStored stored now e) := by
  rw [record_events_seen w now e stored h]
  exact lookupEvent_updateEvent_self _ _ _ _ h

theorem record_keys (w : TtyWriter) (now : Int) (e : Event)
    (hk : w.events.map Prod.fst = w.eventIDs) :
    (w.record now e).events.map Prod.fst = (w.record now e).eventIDs := by
  cases hl : lookupEvent w.events e.ID with
  | none =>
    have hmem : e.ID ∉ w.eventIDs := by
      rw [← hk]
      intro hm
      have hs := (lookupEvent_isSome_iff w.events e.ID).2 hm
      rw [hl] at hs
      exact absurd hs (by simp)
    have hcon : ¬ containsGo w.eventIDs e.ID = true := fun hc =>
      hmem ((containsGo_iff _ _).1 hc)
    unfold TtyWriter.record
    rw [hl]
    simp [hcon, hk]
  | some stored =>
    have hmem : e.ID ∈ w.eventIDs := by
      rw [← hk]
      exact (lookupEvent_isSome_iff w.events e.ID).1 (by rw [hl]; rfl)
    have hcon : containsGo w.eventIDs e.ID = true := (containsGo_iff _ _).2 hmem
    unfold TtyWriter.record
    rw [hl]
    simp [hcon, updateEvent_keys, hk]

theorem foldRecords_keys (calls : List (Int × Event)) :
    ∀ w : TtyWriter, w.events.map Prod.fst = w.eventIDs →
      (calls.foldl (fun w c => w.record c.1 c.2) w).events.map Prod.fst =
        (calls.foldl (fun w c => w.record c.1 c.2) w).eventIDs := by
  induction calls with
  | nil => intro w hk; simpa using hk
  | cons c rest ih =>
    intro w hk
    simp only [List.foldl_cons]
    exact ih _ (record_keys w c.1 c.2 hk)

theorem foldRecords_eventIDs (calls : List (Int × Event)) :
    ∀ w : TtyWriter,
      (calls.foldl (fun w c => w.record c.1 c.2) w).eventIDs =
        w.eventIDs ++ firstSeenFrom w.eventIDs (calls.map (fun c => c.2.ID)) := by
  induction calls with
  | nil => intro w; simp [firstSeenFrom]
  | cons c rest ih =>
    intro w
    simp only [List.foldl_cons, List.map_cons, firstSeenFrom]
    rw [ih (w.record c.1 c.2), record_eventIDs]
    by_cases hc : containsGo w.eventIDs c.2.ID = true
    · simp [hc]
    · simp [hc, List.append_assoc]

theorem mem_firstSeenFrom (a : String) :
    ∀ (l seen : List String), a ∈ firstSeenFrom seen l → a ∉ seen := by
  intro l
  induction l with
  | nil => intro seen h; simp [firstSeenFrom] at h
  | cons x xs ih =>
    intro seen h
    by_cases hc : containsGo seen x = true
    · rw [firstSeenFrom, if_pos hc] at h
      exact ih seen h
    · rw [firstSeenFrom, if_neg hc] at h
      rcases List.mem_cons.1 h with h | h
      · subst h
        exact fun hm => hc ((containsGo_iff _ _).2 hm)
      · intro hm
        exact ih (seen ++ [x]) h (by simp [hm])

theorem nodup_firstSeenFrom :
    ∀ (l seen : List String), seen.Nodup → (seen ++ firstSeenFrom seen l).Nodup := by
  intro l
  induction l with
  | nil => intro seen h; simpa [firstSeenFrom] using h
  | cons x xs ih =>
    intro seen h
    by_cases hc : containsGo seen x = true
    · rw [firstSeenFrom, if_pos hc]
      exact ih seen h
    · rw [firstSeenFrom, if_neg hc]
      have hx : x ∉ seen := fun hm => hc ((containsGo_iff _ _).2 hm)
      have h2 : (seen ++ [x]).Nodup := by
        simp [List.nodup_append, h, hx]
      have h3 := ih (seen ++ [x]) h2
      simpa [List.append_assoc] using h3

theorem le_foldl_max {α : Type} (f : α → Int) :
    ∀ (l : List α) (a : Int), a ≤ l.foldl (fun acc v => max acc (f v)) a := by
  intro l
  induction l with
  | nil => intro a; simp
  | cons x xs ih =>
    intro a
    simp only [List.foldl_cons]
    calc a ≤ max a (f x) := le_max_left _ _
    _ ≤ xs.foldl (fun acc v => max acc (f v)) (max a (f x)) := ih _

/-- The three channel events the `select` of `ttyWriter.Start`
(tty.go:41-56) waits on: a ticker tick, the `w.done` stop signal, and
context cancellation. A stimulus stream linearizes the order in which the
`select` observes them. -/
inductive Stimulus
  | tick
  | stopSignal
  | cancel
deriving DecidableEq, Repr

/-- The non-nil error `Start` can return: `ctx.Err()`, the cancellation
cause of the surrounding context. -/
inductive GoError
  | contextCanceled
deriving DecidableEq, Repr

/-- The observable behavior of `Start` against a stimulus stream: the final
writer state, how many times `w.print()` ran, and `none` while the loop is
still blocked, or `some err` once `Start` returned (`err = none` is Go's
`nil`). -/
structure StartResult where
  writer : TtyWriter
  prints : Nat
  outcome : Option (Option GoError)
deriving DecidableEq, Repr

/-- Embeds `ttyWriter.Start` (tty.go:41-56): on cancellation print once and
return `ctx.Err()`; on the stop signal print once and return `nil`; on a
tick print once and keep looping. An exhausted stream leaves the loop
blocked in the `select`. -/
def startRun (now width : Int) : List Stimulus → TtyWriter → StartResult
  | [], w => { writer := w, prints := 0, outcome := none }
  | Stimulus.cancel :: _, w =>
    { writer := (w.print now width).1, prints := 1,
      outcome := some (some GoError.contextCanceled) }
  | Stimulus.stopSignal :: _, w =>
    { writer := (w.print now width).1, prints := 1, outcome := some none }
  | Stimulus.tick :: rest, w =>
    let r := startRun now width rest ((w.print now width).1)
    { r with prints := r.prints + 1 }

/-- Modelled from the spec: the `subscription.Model` record consumed by
`chooseSub`; only the display name and subscription ID are read (both
through non-nil pointers in Go, modelled as plain strings). -/
structure SubscriptionModel where
  DisplayName : String
  SubscriptionID : String
deriving DecidableEq, Repr

/-- The reply of the interactive selector `userSelect` (context.go:162-170):
a chosen index, the terminal interrupt error, or any other error. -/
inductive SelectReply
  | selected (n : Nat)
  | interrupted
  | failed
deriving DecidableEq, Repr

/-- The observable outcome of `chooseSub`: a subscription ID with nil error,
a returned error, the `os.Exit(0)` taken on interrupt, or the panic from
indexing `subs[selected]` out of range. -/
inductive ChooseSubOutcome
  | ok (id : String)
  | errResult
  | exitZero
  | indexPanic
deriving DecidableEq, Repr

/-- The prompt path of `chooseSub` (context.go:142-153), taken whenever the
single-subscription short-circuit does not fire: build the options list,
consult the selector, and translate its reply. -/
def chooseSubPrompt (subs : List SubscriptionModel)
    (selector : String → List String → SelectReply) : ChooseSubOutcome × Bool :=
  let options := subs.map (fun sub => sub.DisplayName ++ "(" ++ sub.SubscriptionID ++ ")")
  match selector "Select a subscription ID" options with
  | SelectReply.interrupted => (ChooseSubOutcome.exitZero, true)
  | SelectReply.failed => (ChooseSubOutcome.errResult, true)
  | SelectReply.selected n =>
    match subs[n]? with
    | some sub => (ChooseSubOutcome.ok sub.SubscriptionID, true)
    | none => (ChooseSubOutcome.indexPanic, true)

/-- Embeds `contextCreateACIHelper.chooseSub` (context.go:136-154), paired
with a flag recording whether the interactive selector was invoked: a
single subscription short-circuits to its ID with no error and no prompt;
every other subscription count consults the selector. -/
def chooseSub (subs : List SubscriptionModel)
    (selector : String → List String → SelectReply) : ChooseSubOutcome × Bool :=
  match subs with
  | [sub] => (ChooseSubOutcome.ok sub.SubscriptionID, false)
  | _ => chooseSubPrompt subs selector

theorem chooseSubPrompt_invokes (subs : List SubscriptionModel)
    (selector : String → List String → SelectReply) :
    (chooseSubPrompt subs selector).2 = true := by
  simp only [chooseSubPrompt]
  cases selector "Select a subscription ID"
      (List.map (fun sub => sub.DisplayName ++ "(" ++ sub.SubscriptionID ++ ")") subs) with
  | selected n =>
    show (match subs[n]? with
      | some sub => (ChooseSubOutcome.ok sub.SubscriptionID, true)
      | none => (ChooseSubOutcome.indexPanic, true)).2 = true
    cases subs[n]? <;> rfl
  | interrupted => rfl
  | failed => rfl

/-- Demo event: operation "a" reported as `Working`. -/
def aWorking : Event := { ID := "a", Text := "t" }

/-- Demo event: operation "a" reported as `Done`. -/
def aDone : Event := { ID := "a", Text := "t", Status := EventStatus.Done, StatusText := "ok" }

/-- Demo event: operation "a" reported as `Error`. -/
def aError : Event :=
  { ID := "a", Text := "t", Status := EventStatus.Error, StatusText := "boom" }

/-- Demo event: a later `Working` update for "a" with new texts. -/
def aWorking2 : Event := { ID := "a", Text := "t2", StatusText := "st" }

/-- Demo event: operation "b" reported as `Working`. -/
def bWorking : Event := { ID := "b", Text := "u" }

/-- Demo call sequence: "a" seen working, then "b", then "a" finishes. -/
def demoCalls : List (Int × Event) := [(0, aWorking), (3, bWorking), (5, aDone)]

/-- Demo call sequence from the spec's alignment example: IDs "web" and
"database" of different lengths. -/
def demoAlignCalls : List (Int × Event) :=
  [(0, { ID := "web", Text := "starting" }), (1, { ID := "database", Text := "starting" })]

/-- The expanded form of `align`: the left text, the fill computed from the
absolute value of `w - len r - 1`, one space, the right text. -/
theorem align_eq (l r : String) (w : Int) :
    align l r w = l ++ goSpaces ((w - (goLen r : Int) - 1).natAbs - goLen l) ++ " " ++ r := rfl

/-- The length of an `align`-built line. -/
theorem goLen_align (l r : String) (w : Int) :
    goLen (align l r w) = max (goLen l) ((w - (goLen r : Int) - 1).natAbs) + 1 + goLen r := by
  have h1 : goLen " " = 1 := by decide
  rw [align_eq]
  rw [goLen_append, goLen_append, goLen_append, goLen_goSpaces, h1]
  rcases Nat.le_total (goLen l) ((w - (goLen r : Int) - 1).natAbs) with hk | hk
  · rw [Nat.max_eq_right hk]
    omega
  · rw [Nat.max_eq_left hk]
    omega

theorem mem_le_foldl_max {α : Type} (f : α → Int) :
    ∀ (l : List α)(a : Int) (x : α), x ∈ l → f x ≤ l.foldl (fun acc v => max acc (f v)) a := by
  intro l
  induction l with
  | nil => intro a x hx; simp at hx
  | cons y ys ih =>
    intro a x hx
    simp only [List.foldl_cons]
    rcases List.mem_cons.1 hx with h | h
    · subst h
      calc f x ≤ max a (f x) := le_max_right _ _
      _ ≤ ys.foldl (fun acc v => max acc (f v)) (max a (f x)) := le_foldl_max f ys _
    · exact ih _ x h

/-- C1, counterexample. Recording "a" as `Working` at time 0 and then as
`Error` at time 5 moves the stored event from a non-terminal into a
terminal status, yet the stored event still has `endTime = none` (the Go
zero time) afterwards — the guard in `ttyWriter.Event` only fires for an
incoming `Done`, so the claimed freeze at the first transition into `Done`
or `Error` does not happen for `Error`. -/
theorem errorTransitionLeavesEndTimeUnset :
    lookupEvent (runRecords [(0, aWorking), (5, aError)]).events "a" =
      some { ID := "a", Text := "t", Status := EventStatus.Error, StatusText := "boom",
             startTime := 0, endTime := none, spinner := newSpinner } := by
  decide

/-- C1, amended. For a `record` call on an already stored event, `endTime`
is set (to the current time) and the spinner is stopped exactly when the
stored status is not `Done` and the incoming status is `Done`; every other
update — including a transition into `Error`, and including updates of an
already terminal event by a non-`Done` status — leaves `endTime` and the
spinner's stopped flag unchanged. (In particular a `Done` arriving while
the stored status is `Error` sets `endTime` again.) -/
theorem endTimeFreezeCharacterization (w : TtyWriter) (now : Int) (e stored : Event)
    (h : lookupEvent w.events e.ID = some stored) :
    (lookupEvent ((w.record now e).events) e.ID).map Event.endTime =
      some (if stored.Status ≠ EventStatus.Done ∧ e.Status = EventStatus.Done
        then some now else stored.endTime)
  ∧ (lookupEvent ((w.record now e).events) e.ID).map (fun ev => ev.spinner.stopped) =
      some (if stored.Status ≠ EventStatus.Done ∧ e.Status = EventStatus.Done
        then true else stored.spinner.stopped) := by
  rw [lookup_record_seen w now e stored h]
  constructor <;>
    by_cases hc : stored.Status ≠ EventStatus.Done ∧ e.Status = EventStatus.Done <;>
      simp [updatedStored, Spinner.halt, hc]

/-- C1, witness: the amended theorem applied to the stored `Working` event
"a" receiving a `Done` update at time 5. -/
theorem endTimeFreezeCharacterizationWitness :
    (lookupEvent (((runRecords [(0, aWorking)]).record 5 aDone).events) "a").map Event.endTime =
      some (some 5)
  ∧ (lookupEvent (((runRecords [(0, aWorking)]).record 5 aDone).events) "a").map
      (fun ev => ev.spinner.stopped) = some true := by
  have h := endTimeFreezeCharacterization (runRecords [(0, aWorking)]) 5 aDone
    { ID := "a", Text := "t", Status := EventStatus.Working, StatusText := "",
      startTime := 0, endTime := none, spinner := newSpinner } (by decide)
  constructor
  · have h1 := h.1
    simpa using h1
  · have h2 := h.2
    simpa using h2

/-- C7, counterexample. A `record` call with `Done` for the already-seen
`Working` event "a" does not only overwrite `Status`, `Text`, `StatusText`:
it also changes `endTime` from unset to `some 5` and flips the stored
spinner's stopped flag, so neither "overwrites exactly Status, Text,
StatusText" nor "its spinner object is left unchanged" holds for this
update. -/
theorem doneTransitionChangesMoreThanStatusFields :
    (lookupEvent (runRecords [(0, aWorking)]).events "a").map Event.endTime = some none
  ∧ (lookupEvent (((runRecords [(0, aWorking)]).record 5 aDone).events) "a").map Event.endTime =
      some (some 5)
  ∧ (lookupEvent (runRecords [(0, aWorking)]).events "a").map Event.spinner = some newSpinner
  ∧ (lookupEvent (((runRecords [(0, aWorking)]).record 5 aDone).events) "a").map Event.spinner =
      some { index := 0, stopped := true } := by
  decide

/-- C7, amended. A `record` call for an already-seen ID overwrites the
stored event's `Status`, `Text` and `StatusText` from the incoming event and
always leaves `startTime` unchanged; `endTime` and the spinner are also left
unchanged except when the stored status is not `Done` and the incoming
status is `Done`, in which case `endTime` is frozen and the stored spinner
is stopped (not replaced). -/
theorem recordUpdateFrame (w : TtyWriter) (now : Int) (e stored : Event)
    (h : lookupEvent w.events e.ID = some stored) :
    (lookupEvent ((w.record now e).events) e.ID).map Event.startTime = some stored.startTime
  ∧ (lookupEvent ((w.record now e).events) e.ID).map Event.Status = some e.Status
  ∧ (lookupEvent ((w.record now e).events) e.ID).map Event.Text = some e.Text
  ∧ (lookupEvent ((w.record now e).events) e.ID).map Event.StatusText = some e.StatusText
  ∧ (¬ (stored.Status ≠ EventStatus.Done ∧ e.Status = EventStatus.Done) →
      (lookupEvent ((w.record now e).events) e.ID).map Event.spinner = some stored.spinner
    ∧ (lookupEvent ((w.record now e).events) e.ID).map Event.endTime = some stored.endTime) := by
  rw [lookup_record_seen w now e stored h]
  refine ⟨by simp [updatedStored], by simp [updatedStored], by simp [updatedStored],
    by simp [updatedStored], ?_⟩
  intro hc
  constructor <;> simp [updatedStored, hc]

/-- C7, witness: the amended theorem applied to a plain `Working` update of
the stored `Working` event "a" — texts are overwritten, `startTime`,
`endTime` and the spinner stay as they were. -/
theorem recordUpdateFrameWitness :
    (lookupEvent (((runRecords [(0, aWorking)]).record 9 aWorking2).events) "a").map
      Event.startTime = some 0
  ∧ (lookupEvent (((runRecords [(0, aWorking)]).record 9 aWorking2).events) "a").map
      Event.Status = some EventStatus.Working
  ∧ (lookupEvent (((runRecords [(0, aWorking)]).record 9 aWorking2).events) "a").map
      Event.Text = some "t2"
  ∧ (lookupEvent (((runRecords [(0, aWorking)]).record 9 aWorking2).events) "a").map
      Event.StatusText = some "st"
  ∧ (lookupEvent (((runRecords [(0, aWorking)]).record 9 aWorking2).events) "a").map
      Event.spinner = some newSpinner
  ∧ (lookupEvent (((runRecords [(0, aWorking)]).record 9 aWorking2).events) "a").map
      Event.endTime = some none := by
  have h := recordUpdateFrame (runRecords [(0, aWorking)]) 9 aWorking2
    { ID := "a", Text := "t", Status := EventStatus.Working, StatusText := "",
      startTime := 0, endTime := none, spinner := newSpinner } (by decide)
  have h5 := h.2.2.2.2 (by decide)
  exact ⟨by simpa using h.1, by simpa using h.2.1, by simpa using h.2.2.1,
    by simpa using h.2.2.2.1, by simpa using h5.1, by simpa using h5.2⟩

/-- C9. `lineText` is total in `statusPadding`: the panic-aware rendering
(`lineTextChecked`, whose `strings.Repeat` fails on a negative count) always
succeeds and agrees with `lineText`, for every event and every
`statusPadding`, because the padding is clamped to zero before
`strings.Repeat` is called; the second conjunct shows the modelled
`strings.Repeat` does fail on a negative count, so the clamp is what makes
the first conjunct hold. -/
theorem lineTextTotal (now : Int) (event : Event) (terminalWidth statusPadding : Int) :
    lineTextChecked now event terminalWidth statusPadding =
      some (lineText now event terminalWidth statusPadding)
  ∧ stringsRepeat " " (-1) = none := by
  constructor
  · have hcl : ¬ ((if statusPadding - (goLen (event.ID ++ " " ++ event.Text) : Int) < 0
        then (0 : Int)
        else statusPadding - (goLen (event.ID ++ " " ++ event.Text) : Int)) < 0) := by
      split <;> omega
    simp only [lineTextChecked, stringsRepeat]
    rw [if_neg hcl]
    rfl
  · decide

/-- C10, counterexample. With an empty subscription list — fewer than two
subscriptions — `chooseSub` still invokes the interactive selector, so the
prompt is not "only consulted when two or more subscriptions exist". -/
theorem chooseSubPromptsOnEmpty :
    (chooseSub [] (fun _ _ => SelectReply.selected 0)).2 = true
  ∧ ([] : List SubscriptionModel).length < 2 := by
  decide

/-- C10, amended. A one-element subscription list short-circuits: the sole
subscription's ID is returned with a nil error and the selector is never
invoked; the interactive prompt is consulted exactly when the subscription
count is different from one (zero, or two or more). -/
theorem chooseSubSpec :
    (∀ (sub : SubscriptionModel) (selector : String → List String → SelectReply),
      chooseSub [sub] selector = (ChooseSubOutcome.ok sub.SubscriptionID, false))
  ∧ (∀ (subs : List SubscriptionModel) (selector : String → List String → SelectReply),
      ((chooseSub subs selector).2 = true ↔ subs.length ≠ 1)) := by
  constructor
  · intro sub selector
    rfl
  · intro subs selector
    rcases subs with _ | ⟨a, _ | ⟨b, t⟩⟩
    · simp [chooseSub, chooseSubPrompt_invokes]
    · simp [chooseSub]
    · simp [chooseSub, chooseSubPrompt_invokes]

/-- C4, counterexample. The widths `-8` and `0` are both malformed
(`width ≤ 0`), yet `align` lays the same segments out differently for them:
the malformed width flows into the computed pad width (Go's `Sprintf` turns
the negative pad width into left-justification at its absolute value), so
the width is not clamped to any minimum usable floor and the malformed value
does propagate into the rendered line. -/
theorem malformedWidthPropagates :
    ((-8 : Int) ≤ 0 ∧ (0 : Int) ≤ 0) ∧ align "a" "b" (-8) ≠ align "a" "b" 0 := by
  decide

/-- C4, amended. Rendering does not crash on malformed terminal widths, but
not by clamping: for every width, including `width ≤ 0`, `align` totally
produces the left text, a space fill, one separator space and the right
text, and the line's length is governed by the absolute value of
`w - len r - 1` — the malformed width thus influences the output instead of
being replaced by a floor. -/
theorem alignTotalNoCrash (l r : String) (w : Int) :
    align l r w = l ++ goSpaces ((w - (goLen r : Int) - 1).natAbs - goLen l) ++ " " ++ r
  ∧ goLen (align l r w) = max (goLen l) ((w - (goLen r : Int) - 1).natAbs) + 1 + goLen r :=
  ⟨align_eq l r w, goLen_align l r w⟩

/-- C5, counterexample. At terminal width 0 the left segment "a" already
exceeds `W - len r - 1 = -2`, so by the claim the output should be the two
segments joined by exactly one space; instead `align` pads "a" to the
absolute value of the negative pad width, producing "a  c" rather than
"a c". -/
theorem alignSmallWidthStillPads :
    ((0 : Int) - (goLen "c" : Int) - 1 ≤ (goLen "a" : Int))
  ∧ align "a" "c" 0 ≠ "a" ++ " " ++ "c" := by
  decide

/-- C5, amended. For widths `W` with `W - len r - 1 ≥ 0` the claim holds as
stated: if the left segment reaches or exceeds `W - len r - 1` the segments
are joined with exactly one space; otherwise the right segment is
right-aligned at width `W` (the line is exactly `W` columns); and in no case
is any part of `l` or `r` truncated (`l` is always kept whole at the start,
`r` whole at the end). For `W - len r - 1 < 0` Go's `Sprintf` instead
left-justifies at the absolute value of the pad width. -/
theorem alignRightAlignSpec (l r : String) (w : Int) (hw : 0 ≤ w - (goLen r : Int) - 1) :
    (w - (goLen r : Int) - 1 ≤ (goLen l : Int) → align l r w = l ++ " " ++ r)
  ∧ ((goLen l : Int) < w - (goLen r : Int) - 1 → (goLen (align l r w) : Int) = w)
  ∧ ∃ n, align l r w = l ++ goSpaces n ++ " " ++ r := by
  have hnat : ((w - (goLen r : Int) - 1).natAbs : Int) = w - (goLen r : Int) - 1 :=
    Int.natAbs_of_nonneg hw
  refine ⟨?_, ?_, ⟨(w - (goLen r : Int) - 1).natAbs - goLen l, align_eq l r w⟩⟩
  · intro hle
    have h0 : (w - (goLen r : Int) - 1).natAbs - goLen l = 0 := by omega
    rw [align_eq, h0]
    show l ++ "" ++ " " ++ r = l ++ " " ++ r
    simp
  · intro hlt
    have hna : goLen l ≤ (w - (goLen r : Int) - 1).natAbs := by omega
    rw [goLen_align, Nat.max_eq_right hna]
    omega

/-- C5, witness: the amended theorem at `l = "ab"`, `r = "c"`, `W = 10`
(the pad width `10 - 1 - 1 = 8` is non-negative, the left segment is
shorter, so the line comes out exactly 10 columns wide). -/
theorem alignRightAlignSpecWitness :
    ((10 : Int) - (goLen "c" : Int) - 1 ≤ (goLen "ab" : Int) →
      align "ab" "c" 10 = "ab" ++ " " ++ "c")
  ∧ ((goLen "ab" : Int) < 10 - (goLen "c" : Int) - 1 →
      (goLen (align "ab" "c" 10) : Int) = 10)
  ∧ ∃ n, align "ab" "c" 10 = "ab" ++ goSpaces n ++ " " ++ "c" :=
  alignRightAlignSpec "ab" "c" 10 (by decide)

/-- C8. Against any stream of select stimuli consisting of ticks followed by
a stop signal (resp. a cancellation), `Start` returns `nil` (resp. the
cancellation cause `ctx.Err()`), having performed exactly one repaint for
each preceding tick plus exactly one final repaint triggered by the signal
itself, and ignoring everything after the signal; on a stream of ticks
alone it has not returned (`Start` blocks until stopped or cancelled). -/
theorem startLoopBehavior (now width : Int) (w : TtyWriter) (pre rest : List Stimulus)
    (hpre : ∀ x ∈ pre, x = Stimulus.tick) :
    (startRun now width (pre ++ Stimulus.stopSignal :: rest) w).outcome = some none
  ∧ (startRun now width (pre ++ Stimulus.stopSignal :: rest) w).prints = pre.length + 1
  ∧ (startRun now width (pre ++ Stimulus.cancel :: rest) w).outcome =
      some (some GoError.contextCanceled)
  ∧ (startRun now width (pre ++ Stimulus.cancel :: rest) w).prints = pre.length + 1
  ∧ (startRun now width pre w).outcome = none := by
  induction pre generalizing w with
  | nil => simp [startRun]
  | cons x xs ih =>
    have hx : x = Stimulus.tick := hpre x (by simp)
    subst hx
    have hxs : ∀ y ∈ xs, y = Stimulus.tick := fun y hy => hpre y (by simp [hy])
    obtain ⟨h1, h2, h3, h4, h5⟩ := ih ((w.print now width).1) hxs
    refine ⟨?_, ?_, ?_, ?_, ?_⟩ <;> simp [startRun, h1, h2, h3, h4, h5]

/-- C8, witness: one tick, then the stop signal (resp. a cancellation),
with one trailing tick that is never consumed, from the fresh renderer. -/
theorem startLoopBehaviorWitness :
    (startRun 0 80 ([Stimulus.tick] ++ Stimulus.stopSignal :: [Stimulus.tick])
      initWriter).outcome = some none
  ∧ (startRun 0 80 ([Stimulus.tick] ++ Stimulus.stopSignal :: [Stimulus.tick])
      initWriter).prints = [Stimulus.tick].length + 1
  ∧ (startRun 0 80 ([Stimulus.tick] ++ Stimulus.cancel :: [Stimulus.tick])
      initWriter).outcome = some (some GoError.contextCanceled)
  ∧ (startRun 0 80 ([Stimulus.tick] ++ Stimulus.cancel :: [Stimulus.tick])
      initWriter).prints = [Stimulus.tick].length + 1
  ∧ (startRun 0 80 [Stimulus.tick] initWriter).outcome = none :=
  startLoopBehavior 0 80 initWriter [Stimulus.tick] [Stimulus.tick] (by decide)

/-- C2. For every sequence of `record` calls from the fresh renderer: the
Event Store's key list is exactly `eventIDs` (so the store holds at most one
event per ID), `eventIDs` lists each recorded ID exactly once (no
duplicates) in first-seen order — however the updates to already-seen IDs
are interleaved — and whenever a repaint runs (the ID list being non-empty)
its output is the header followed by exactly one `lineText` line per known
ID, in exactly that first-seen order. -/
theorem eventStoreOrderInvariant (calls : List (Int × Event)) :
    (runRecords calls).events.map Prod.fst = (runRecords calls).eventIDs
  ∧ (runRecords calls).eventIDs.Nodup
  ∧ (runRecords calls).eventIDs = firstSeenFrom [] (calls.map (fun c => c.2.ID))
  ∧ ∀ (now width : Int), (runRecords calls).eventIDs ≠ [] →
      ((runRecords calls).print now width).2 =
        headerLineOf (runRecords calls) ::
          (firstSeenFrom [] (calls.map (fun c => c.2.ID))).map
            (fun v => lineText now (getEvent (runRecords calls) v) width
              (statusPaddingOf (runRecords calls))) := by
  have hkeys : (runRecords calls).events.map Prod.fst = (runRecords calls).eventIDs :=
    foldRecords_keys calls initWriter rfl
  have hids : (runRecords calls).eventIDs = firstSeenFrom [] (calls.map (fun c => c.2.ID)) := by
    have h := foldRecords_eventIDs calls initWriter
    simpa [runRecords, initWriter] using h
  have hnodup : (runRecords calls).eventIDs.Nodup := by
    rw [hids]
    have h2 := nodup_firstSeenFrom (calls.map (fun c => c.2.ID)) [] List.nodup_nil
    simpa using h2
  refine ⟨hkeys, hnodup, hids, ?_⟩
  intro now width hne
  rw [← hids]
  unfold TtyWriter.print
  rw [if_neg hne]
  rfl

/-- C2, witness: the demo run "a" working, "b" working, then "a" done — the
store keys and the ID list are ["a", "b"], duplicate-free, and the repaint
at time 7 and width 80 renders the header and then "a"'s line before "b"'s
line. -/
theorem eventStoreOrderInvariantWitness :
    (runRecords demoCalls).events.map Prod.fst = (runRecords demoCalls).eventIDs
  ∧ (runRecords demoCalls).eventIDs.Nodup
  ∧ (runRecords demoCalls).eventIDs = firstSeenFrom [] (demoCalls.map (fun c => c.2.ID))
  ∧ ((runRecords demoCalls).print 7 80).2 =
      headerLineOf (runRecords demoCalls) ::
        (firstSeenFrom [] (demoCalls.map (fun c => c.2.ID))).map
          (fun v => lineText 7 (getEvent (runRecords demoCalls) v) 80
            (statusPaddingOf (runRecords demoCalls))) := by
  have h := eventStoreOrderInvariant demoCalls
  exact ⟨h.1, h.2.1, h.2.2.1, h.2.2.2 7 80 (by decide)⟩

/-- C3. On a repaint with at least one known event, the first line written
is the header; its text is `"[+] Running <doneCount>/<totalCount>"` where
`doneCount` counts the stored events whose status is `Done` and
`totalCount` is `numLines`, the line count recorded by the previous repaint
(the post-state records the number of data lines just written as the next
`numLines`, which is the ID count, not consulted for the current header);
and the header carries the complete-state blue color exactly when
`doneCount = totalCount` and `totalCount` is nonzero. -/
theorem headerLineSpec (w : TtyWriter) (now width : Int) (h : w.eventIDs ≠ []) :
    (w.print now width).2.head? = some (headerLineOf w)
  ∧ headerTextOf w =
      "[+] Running "
        ++ toString (List.countP (fun p => p.2.Status == EventStatus.Done) w.events)
        ++ "/" ++ toString w.numLines
  ∧ ((w.print now width).1).numLines = w.eventIDs.length
  ∧ (headerLineOf w = aecApply (headerTextOf w) blueF ↔
      (numDone w.events = w.numLines ∧ w.numLines ≠ 0)) := by
  have hlen9 : ∀ s : String, goLen (aecApply s blueF) = goLen s + 9 := by
    intro s
    have h5 : goLen blueF = 5 := by decide
    have h4 : goLen ansiReset = 4 := by decide
    simp only [aecApply]
    rw [goLen_append, goLen_append, h5, h4]
    omega
  refine ⟨?_, ?_, ?_, ?_⟩
  · unfold TtyWriter.print
    rw [if_neg h]
    rfl
  · simp only [headerTextOf, numDone, List.countP_eq_length_filter]
  · unfold TtyWriter.print
    rw [if_neg h]
    simp
  · constructor
    · intro hb
      by_cases hcond : w.numLines ≠ 0 ∧ numDone w.events = w.numLines
      · exact ⟨hcond.2, hcond.1⟩
      · exfalso
        unfold headerLineOf at hb
        rw [if_neg hcond] at hb
        have hc := congrArg goLen hb
        rw [hlen9] at hc
        omega
    · intro hcond
      unfold headerLineOf
      rw [if_pos ⟨hcond.2, hcond.1⟩]

/-- The stored form of a finished event "a" (terminal, frozen at time 5). -/
def aDoneStored : Event :=
  { ID := "a", Text := "t", Status := EventStatus.Done, StatusText := "ok",
    startTime := 0, endTime := some 5, spinner := { index := 0, stopped := true } }

/-- A demo renderer state for the header: two stored events, one `Done`,
with a previous repaint that wrote one line (`numLines = 1`), so the header
denominator is 1 while the live event count is 2. -/
def demoHeaderState : TtyWriter :=
  { events := [("a", aDoneStored), ("b", bWorking)],
    eventIDs := ["a", "b"], repeated := true, numLines := 1 }

/-- C3, witness: the header theorem at the demo state — `doneCount = 1`,
`totalCount = 1` (the previous repaint's line count, although two events are
known), so the header is the blue `"[+] Running 1/1"`. -/
theorem headerLineSpecWitness :
    (demoHeaderState.print 7 80).2.head? = some (headerLineOf demoHeaderState)
  ∧ headerTextOf demoHeaderState =
      "[+] Running "
        ++ toString (List.countP (fun p => p.2.Status == EventStatus.Done)
            demoHeaderState.events)
        ++ "/" ++ toString demoHeaderState.numLines
  ∧ ((demoHeaderState.print 7 80).1).numLines = demoHeaderState.eventIDs.length
  ∧ (headerLineOf demoHeaderState = aecApply (headerTextOf demoHeaderState) blueF ↔
      (numDone demoHeaderState.events = demoHeaderState.numLines
        ∧ demoHeaderState.numLines ≠ 0)) := by
  have hh := headerLineSpec demoHeaderState 7 80 (by decide)
  exact ⟨hh.1, hh.2.1, hh.2.2.1, hh.2.2.2⟩

/-- C6. For every renderer state and every known ID: the ID-and-text column
of that event's line — `ID ++ " " ++ Text` followed by the spaces `lineText`
inserts — is exactly `statusPaddingOf` wide (the spinner glyph stands before
this column and is not counted), and the shared padding equals the maximum
over all known events of `len ID + 1 + len Text`; hence all `StatusText`
columns start at the same offset. -/
theorem statusTextAlignment (s : TtyWriter) (id : String) (h : id ∈ s.eventIDs) :
    ((goLen ((getEvent s id).ID ++ " " ++ (getEvent s id).Text) : Int)
        + (linePadding (getEvent s id) (statusPaddingOf s) : Int) = statusPaddingOf s)
  ∧ statusPaddingOf s =
      s.eventIDs.foldl
        (fun acc v => max acc ((goLen (getEvent s v).ID : Int) + 1
          + (goLen (getEvent s v).Text : Int))) 0 := by
  have hle : (goLen ((getEvent s id).ID ++ " " ++ (getEvent s id).Text) : Int)
      ≤ statusPaddingOf s := by
    have h2 := mem_le_foldl_max
      (fun v => (goLen ((getEvent s v).ID ++ " " ++ (getEvent s v).Text) : Int))
      s.eventIDs 0 id h
    simpa [statusPaddingOf] using h2
  constructor
  · simp only [linePadding]
    rw [if_neg (by omega :
      ¬ (statusPaddingOf s
          - (goLen ((getEvent s id).ID ++ " " ++ (getEvent s id).Text) : Int) < 0))]
    omega
  · unfold statusPaddingOf
    have hfun : (fun (acc : Int) (v : String) =>
          max acc ((goLen ((getEvent s v).ID ++ " " ++ (getEvent s v).Text) : Int)))
        = fun (acc : Int) (v : String) =>
          max acc ((goLen (getEvent s v).ID : Int) + 1 + (goLen (getEvent s v).Text : Int)) := by
      funext acc v
      have h1 : goLen ((getEvent s v).ID ++ " " ++ (getEvent s v).Text)
          = goLen (getEvent s v).ID + 1 + goLen (getEvent s v).Text := by
        have hsp : goLen " " = 1 := by decide
        rw [goLen_append, goLen_append, hsp]
      rw [h1]
      norm_cast
    rw [hfun]

/-- C6, witness: the alignment theorem at the run of the spec's example
events "web" and "database", for the shorter ID "web". -/
theorem statusTextAlignmentWitness :
    ((goLen ((getEvent (runRecords demoAlignCalls) "web").ID ++ " "
        ++ (getEvent (runRecords demoAlignCalls) "web").Text) : Int)
      + (linePadding (getEvent (runRecords demoAlignCalls) "web")
          (statusPaddingOf (runRecords demoAlignCalls)) : Int)
      = statusPaddingOf (runRecords demoAlignCalls))
  ∧ statusPaddingOf (runRecords demoAlignCalls) =
      (runRecords demoAlignCalls).eventIDs.foldl
        (fun acc v => max acc ((goLen (getEvent (runRecords demoAlignCalls) v).ID : Int) + 1
          + (goLen (getEvent (runRecords demoAlignCalls) v).Text : Int))) 0 :=
  statusTextAlignment (runRecords demoAlignCalls) "web" (by decide)

end Compose
